import Mathlib

/-!
Verification of the Daily-Top-News scraping service.

This file shallowly embeds the Go source of the service: the listing
scraper for The Daily Star (`fetchTheDailyStarWithColly`), the
enrichment pass (`updateMissingImageURLs` / `scrapeImageFromURL`), and
the HTTP-level aggregation handlers (`GetAllNews`, `GetNewsBySource`).
HTML documents reach the Go code only through the external query
interfaces of colly (`ChildText` / `ChildAttr`) and goquery
(`Find` / `Attr`); those interfaces are embedded as finite lookup
tables so that every definition is executable.  Go byte strings are
modelled as Lean strings, with `String.length` standing for Go
`len` (they agree on ASCII inputs, which is all the theorems use).
-/

namespace DailyTopNews

/-! ## Data model -/

/-- Embeds the Go struct `NewsArticle` (part_001).  `PublishedAt`
(`time.Now()` at extraction) is modelled as a `Nat` clock value. -/
structure NewsArticle where
  id : String
  title : String
  description : String
  imageURL : String
  url : String
  source : String
  publishedAt : Nat
deriving Repr, DecidableEq

/-- Embeds the Go struct `Source`: registry entry for one news site. -/
structure Source where
  name : String
  displayName : String
  url : String
  active : Bool
deriving Repr, DecidableEq

/-- Embeds the Go struct `NewsResponse`: the success envelope returned
by the handlers (fields `Success`, `Data`, `Count`, `Source`). -/
structure NewsResponse where
  success : Bool
  data : List NewsArticle
  count : Nat
  source : String
deriving Repr, DecidableEq

/-- Embeds the Go struct `ErrorResponse` (fields `Success`, `Error`,
`Message`). -/
structure ErrorResponse where
  success : Bool
  error : String
  message : String
deriving Repr, DecidableEq

/-- Result of one gin handler invocation: the HTTP status code together
with either the success envelope or the error envelope, as passed to
`c.JSON`. -/
inductive ApiResult where
  | ok (status : Nat) (resp : NewsResponse)
  | err (status : Nat) (resp : ErrorResponse)
deriving Repr, DecidableEq

/-! ## The external document-query interface

A listing-page container is visible to the Go code only through
colly's `e.ChildText(selector)` and `e.ChildAttr(selector, attr)`,
both of which return `""` when nothing matches.  We embed a container
as finite tables for those two calls. -/

/-- One candidate article container on the listing page, as seen
through colly's query interface. -/
structure Container where
  texts : List (String × String)
  attrs : List ((String × String) × String)
deriving Repr, DecidableEq

/-- Embeds `e.ChildText(selector)`: empty string when the selector
matches nothing. -/
def Container.childText (c : Container) (selector : String) : String :=
  (c.texts.lookup selector).getD ""

/-- Embeds `e.ChildAttr(selector, attr)`: empty string when the
selector matches nothing or the attribute is absent. -/
def Container.childAttr (c : Container) (selector attr : String) : String :=
  (c.attrs.lookup (selector, attr)).getD ""

/-! ## String helpers embedding the Go standard-library calls used -/

/-- Embeds `strings.TrimPrefix(s, p)`. -/
def dropPrefixStr (s p : String) : String :=
  if p.toList.isPrefixOf s.toList then (s.toList.drop p.toList.length).asString else s

/-- Splitting a character list at every occurrence of a separator,
keeping empty fields: the semantics of `strings.Split` for a
one-character separator. -/
def splitCharList (sep : Char) : List Char → List (List Char)
  | [] => [[]]
  | c :: t =>
    if c = sep then [] :: splitCharList sep t
    else
      match splitCharList sep t with
      | [] => [[c]]
      | h :: r => (c :: h) :: r

/-- Embeds `strings.Split(s, sep)` for a one-character separator. -/
def strSplitChar (sep : Char) (s : String) : List String :=
  (splitCharList sep s.toList).map List.asString

/-- Splitting a character list at every character satisfying a
predicate, keeping empty fields. -/
def splitPredList (p : Char → Bool) : List Char → List (List Char)
  | [] => [[]]
  | c :: t =>
    if p c then [] :: splitPredList p t
    else
      match splitPredList p t with
      | [] => [[c]]
      | h :: r => (c :: h) :: r

/-- Embeds `strings.Fields(s)`: the maximal whitespace-free runs. -/
def goFields (s : String) : List String :=
  ((splitPredList Char.isWhitespace s.toList).map List.asString).filter (· ≠ "")

/-- Embeds `strings.TrimSpace(s)`: drop leading and trailing
whitespace, spelled out over the character list so that its
interaction with other list operations can be reasoned about. -/
def goTrim (s : String) : String :=
  (((s.toList.dropWhile Char.isWhitespace).reverse.dropWhile
      Char.isWhitespace).reverse).asString

/-- The first field of `strings.Split(s, sep)` for a one-character
separator: the prefix of `s` before the first occurrence of `sep`
(the whole of `s` when `sep` does not occur). -/
def firstSplitField (sep : Char) (s : String) : String :=
  (s.toList.takeWhile (· ≠ sep)).asString

/-- Substring test on character lists, embedding `strings.Contains`. -/
def listContainsSub (l pat : List Char) : Bool :=
  match l with
  | [] => pat.isEmpty
  | _ :: t => pat.isPrefixOf l || listContainsSub t pat

/-- Embeds `strings.Contains(s, pat)`. -/
def strContains (s pat : String) : Bool :=
  listContainsSub s.toList pat.toList

/-- Embeds the title clean-up block: the three `strings.ReplaceAll`
calls (newline, carriage return, tab to space) followed by
`strings.Join(strings.Fields(title), " ")`. -/
def normalizeWhitespace (s : String) : String :=
  let repl : Char → Char := fun c =>
    if c = Char.ofNat 10 ∨ c = Char.ofNat 13 ∨ c = Char.ofNat 9 then Char.ofNat 32 else c
  String.intercalate " " (goFields ((s.toList.map repl).asString))

/-- Embeds one truncation step
`if idx := strings.Index(title, sep); idx != -1 then
title = strings.TrimSpace(title[:idx])`. -/
def truncAtChar (sep : Char) (s : String) : String :=
  if s.toList.contains sep then goTrim (firstSplitField sep s)
  else s

/-- The full title clean-up applied after a raw title is accepted:
whitespace normalization, then truncation at the first comma, then at
the first period. -/
def cleanTitle (s : String) : String :=
  truncAtChar (Char.ofNat 46) (truncAtChar (Char.ofNat 44) (normalizeWhitespace s))

/-! ## URL resolution

`e.Request.AbsoluteURL` (colly) resolves a reference against the page
being crawled; the listing crawl fetches the site root, so relative
references resolve against the site origin.  The library is external
to the repository; this is its embedding at the granularity the code
relies on: absolute references pass through unchanged, the empty
string stays empty, anything else is prefixed with the origin. -/

/-- The origin prefix hard-coded in the link filter. -/
def theDailyStarOrigin : String := "https://www.thedailystar.net"

/-- Whether a string is an absolute URL (has an explicit http scheme). -/
def isAbsoluteURL (s : String) : Bool :=
  "http://".toList.isPrefixOf s.toList || "https://".toList.isPrefixOf s.toList

/-- Embeds `e.Request.AbsoluteURL(s)` for the listing crawl of the
site root. -/
def absoluteURL (s : String) : String :=
  if s = "" then ""
  else if isAbsoluteURL s then s
  else theDailyStarOrigin ++ s

/-! ## Listing extraction (`fetchTheDailyStarWithColly`, part_000) -/

/-- The ordered title selector list of the listing extractor. -/
def titleSelectors : List String :=
  ["h1", "h2", "h3", "h4", ".title", ".headline"]

/-- Embeds the title loop: `title` is overwritten with the trimmed
`ChildText` of each selector in turn, and the loop breaks at the first
one that is non-empty with length at least 10.  When no selector
reaches the break condition, `title` keeps the last assignment. -/
def titleLoop (c : Container) : List String → String → String
  | [], acc => acc
  | sel :: rest, _ =>
    let t := goTrim (c.childText sel)
    if t ≠ "" ∧ 10 ≤ t.length then t else titleLoop c rest t

/-- The raw title the extractor settles on before clean-up. -/
def rawTitle (c : Container) : String :=
  titleLoop c titleSelectors ""

/-- Embeds the category-link depth filter: split the link after
stripping the origin prefix on the path separator. -/
def pathSegments (link : String) : List String :=
  strSplitChar (Char.ofNat 47) (dropPrefixStr link theDailyStarOrigin)

/-- The depth filter accepts a link when it has more than 3 path
segments and the last segment is non-empty (the Go code returns early
on `len(pathSegments) <= 3 || pathSegments[len-1] == ""`). -/
def linkDepthOK (link : String) : Bool :=
  ¬((pathSegments link).length ≤ 3 ∨ (pathSegments link).getLastD "" = "")

/-- The section keywords of the news-article link filter. -/
def sectionKeywords : List String :=
  ["/news/", "/bangladesh/", "/world/", "/business/", "/sports/", "/entertainment/"]

/-- Embeds the keyword filter: the candidate survives when the link
contains at least one section keyword (the Go code returns early when
all six `strings.Contains` tests fail). -/
def linkKeywordOK (link : String) : Bool :=
  sectionKeywords.any (fun k => strContains link k)

/-- The ordered image attribute list tried on the `img` descendant. -/
def imageAttrs : List String :=
  ["src", "data-src", "data-lazy-src", "data-srcset", "data-original", "data-image", "data-lazy"]

/-- Embeds the image attribute loop: `imageURL` is overwritten with
`ChildAttr("img", attr)` for each attribute in order, breaking at the
first non-empty value; falls back to `ChildAttr("picture source",
"srcset")` when all are empty. -/
def rawListingImage (c : Container) : String :=
  match imageAttrs.find? (fun attr => c.childAttr "img" attr ≠ "") with
  | some attr => c.childAttr "img" attr
  | none => c.childAttr "picture source" "srcset"

/-- Embeds the post-processing of a non-empty raw image value: resolve
to absolute; when the result contains a comma (a responsive srcset
list), keep the first comma-separated entry and within it the first
space-separated token, trimmed. -/
def resolveListingImage (raw : String) : String :=
  if raw = "" then ""
  else
    let u := absoluteURL raw
    if strContains u "," then
      goTrim (firstSplitField (Char.ofNat 32) (firstSplitField (Char.ofNat 44) u))
    else u

/-- The listing image as stored on the article. -/
def extractListingImage (c : Container) : String :=
  resolveListingImage (rawListingImage c)

/-- The combined paragraph/summary selector of the description pass. -/
def descriptionSelector : String :=
  "p, .summary, .intro, .teaser-text, .excerpt, .description"

/-- Embeds the description pass: trimmed `ChildText` of the combined
selector, cut to 200 characters with an ellipsis when longer. -/
def extractDescription (c : Container) : String :=
  let d := goTrim (c.childText descriptionSelector)
  if d ≠ "" ∧ 200 < d.length then d.take 200 ++ "..." else d

/-- State threaded through the `OnHTML` callback: the accepted
articles and the `articleID` counter. -/
structure CrawlState where
  articles : List NewsArticle
  articleID : Nat
deriving Repr, DecidableEq

/-- Embeds one invocation of the `OnHTML` callback of
`fetchTheDailyStarWithColly` on one container, in source order: the
10-article cap, the title loop and emptiness check, title clean-up,
link extraction and resolution, the depth filter, the keyword filter,
the duplicate-URL scan, then image and description extraction and the
append. -/
def processContainer (now : Nat) (st : CrawlState) (c : Container) : CrawlState :=
  if 10 ≤ st.articles.length then st
  else
    let title := rawTitle c
    if title = "" then st
    else
      let title := cleanTitle title
      let link := c.childAttr "a" "href"
      if link = "" then st
      else
        let link := absoluteURL link
        if ¬linkDepthOK link then st
        else if ¬linkKeywordOK link then st
        else if st.articles.any (fun a => a.url = link) then st
        else
          let imageURL := extractListingImage c
          let description := extractDescription c
          let article : NewsArticle :=
            { id := "dailystar_" ++ toString st.articleID
              title := title
              description := description
              imageURL := imageURL
              url := link
              source := "thedailystar"
              publishedAt := now }
          { articles := st.articles ++ [article], articleID := st.articleID + 1 }

/-- The whole listing crawl over the page containers, before the
enrichment pass. -/
def crawlListing (now : Nat) (cs : List Container) : List NewsArticle :=
  (cs.foldl (processContainer now) { articles := [], articleID := 0 }).articles

/-! ## Enrichment (`scrapeImageFromURL`, `updateMissingImageURLs`)

`scrapeImageFromURL` fetches an article page with goquery and walks
four selector fallbacks; each `doc.Find(sel).Each` loop keeps the
first element whose attribute exists with a non-empty value (an
existing empty value is overwritten by a later non-empty one, because
the `imageURL == ""` guard re-fires).  An article page is embedded as
the four lists of attribute values present on the matched elements,
in document order. -/

/-- An article detail page, as seen through the four goquery queries
of `scrapeImageFromURL`: attribute values, in document order, of
elements where the attribute exists. -/
structure EnrichDoc where
  pictureImgDataSrcset : List String
  gallerySpanDataSrc : List String
  ogImageContent : List String
  articleImgSrc : List String
deriving Repr, DecidableEq

/-- First non-empty value set by one `Each` fallback loop, or `""`. -/
def firstNonEmptyValue (l : List String) : String :=
  ((l.filter (· ≠ "")).headD "")

/-- Embeds the selector cascade of `scrapeImageFromURL` once the page
has been fetched and parsed: `picture img[data-srcset]`, then
`span.lg-gallery[data-src]`, then `meta[property=og:image]`, then
`article img[src]` / `div.section-media img[src]`; `none` embeds the
final `no image found` error.  The recovered value is returned
verbatim, with no resolution step. -/
def scrapeImageFromDoc (d : EnrichDoc) : Option String :=
  let i1 := firstNonEmptyValue d.pictureImgDataSrcset
  if i1 ≠ "" then some i1
  else
    let i2 := firstNonEmptyValue d.gallerySpanDataSrc
    if i2 ≠ "" then some i2
    else
      let i3 := firstNonEmptyValue d.ogImageContent
      if i3 ≠ "" then some i3
      else
        let i4 := firstNonEmptyValue d.articleImgSrc
        if i4 ≠ "" then some i4 else none

/-- Embeds `scrapeImageFromURL`: the argument is the outcome of the
HTTP fetch and parse of the article page (`none` embeds a request
error, a non-200 status, or a parse failure, each of which returns an
error in Go). -/
def scrapeImageFromURL (fetched : Option EnrichDoc) : Option String :=
  fetched.bind scrapeImageFromDoc

/-- Embeds the body of the `updateMissingImageURLs` loop for one
article: when `ImageURL` is empty, scrape the article's own URL and
store the result; an error is logged and the article skipped.  `web`
maps each URL to the outcome of fetching it. -/
def enrichOne (web : String → Option EnrichDoc) (a : NewsArticle) : NewsArticle :=
  if a.imageURL = "" then
    match scrapeImageFromURL (web a.url) with
    | none => a
    | some img => { a with imageURL := img }
  else a

/-- Embeds `updateMissingImageURLs`: the in-place index loop over the
article slice. -/
def updateMissingImageURLs (web : String → Option EnrichDoc) (l : List NewsArticle) : List NewsArticle :=
  l.map (enrichOne web)

/-! ## The per-source fetch (`fetchTheDailyStarWithColly`,
`fetchNewsFromSource`) and the handlers -/

/-- Embeds `fetchTheDailyStarWithColly`: `page` is the outcome of
`c.Visit` on the entry URL (`none` embeds a visit error, returned as a
`failed to visit` error; `some cs` the containers matched by the
listing selectors, in document order).  On success the crawl runs,
then the enrichment pass. -/
def fetchTheDailyStarWithColly (web : String → Option EnrichDoc) (now : Nat)
    (page : Option (List Container)) : Option (List NewsArticle) :=
  match page with
  | none => none
  | some cs => some (updateMissingImageURLs web (crawlListing now cs))

/-- Embeds `fetchNewsFromSource`: only `thedailystar` is handled; any
other name returns an `unsupported source` error.  `pages` maps an
entry URL to the outcome of visiting it. -/
def fetchNewsFromSource (pages : String → Option (List Container))
    (web : String → Option EnrichDoc) (now : Nat)
    (sourceName url : String) : Option (List NewsArticle) :=
  if sourceName = "thedailystar" then fetchTheDailyStarWithColly web now (pages url)
  else none

/-- Embeds the `GetAllNews` handler: one goroutine per active source;
a goroutine whose fetch errors sends the empty slice; the channel
collection appends everything in arrival order (embedded here as
registry order) and the response always carries `Success: true` and
`Count: len(allArticles)`. -/
def GetAllNews (sources : List Source) (pages : String → Option (List Container))
    (web : String → Option EnrichDoc) (now : Nat) : ApiResult :=
  let results := sources.foldr
    (fun s acc =>
      if s.active then
        ((fetchNewsFromSource pages web now s.name s.url).getD []) :: acc
      else acc) []
  let allArticles := results.foldl (· ++ ·) []
  .ok 200 { success := true, data := allArticles, count := allArticles.length, source := "" }

/-- Embeds the `GetNewsBySource` handler: unknown source returns 404
`source_not_found`; an inactive source returns 400 `source_inactive`;
a fetch error returns 500 `fetch_error`; otherwise a success envelope
with `Count: len(news)` and the source name. -/
def GetNewsBySource (sources : List Source) (pages : String → Option (List Container))
    (web : String → Option EnrichDoc) (now : Nat) (sourceName : String) : ApiResult :=
  match sources.find? (fun s => s.name = sourceName) with
  | none =>
    .err 404 { success := false, error := "source_not_found", message := "News source not found" }
  | some source =>
    if ¬source.active then
      .err 400 { success := false, error := "source_inactive"
                 message := "News source is currently inactive" }
    else
      match fetchNewsFromSource pages web now sourceName source.url with
      | none =>
        .err 500 { success := false, error := "fetch_error", message := "Failed to fetch news" }
      | some news =>
        .ok 200 { success := true, data := news, count := news.length, source := sourceName }

/-! ## Concrete fixtures used by witnesses and counterexamples -/

/-- A web environment on which every enrichment fetch fails. -/
def noWeb : String → Option EnrichDoc := fun _ => none

/-- A page environment on which every entry-page visit fails. -/
def noPages : String → Option (List Container) := fun _ => none

/-- A listing container whose headline passes the 10-character break
condition but is clipped below 10 characters at its first comma. -/
def shortTitleContainer : Container :=
  { texts := [("h1", "Big news, today now")]
    attrs := [(("a", "href"), "/news/bangladesh/2024/big-story")] }

/-- The article the crawl emits for `shortTitleContainer`. -/
def shortTitleArticle : NewsArticle :=
  { id := "dailystar_0"
    title := "Big news"
    description := ""
    imageURL := ""
    url := "https://www.thedailystar.net/news/bangladesh/2024/big-story"
    source := "thedailystar"
    publishedAt := 0 }

/-! ## Helper lemmas about the enrichment pass -/

/-- One enrichment step only ever touches `imageURL`. -/
lemma enrichOne_fields (web : String → Option EnrichDoc) (a : NewsArticle) :
    (enrichOne web a).id = a.id ∧ (enrichOne web a).title = a.title ∧
    (enrichOne web a).description = a.description ∧ (enrichOne web a).url = a.url ∧
    (enrichOne web a).source = a.source ∧ (enrichOne web a).publishedAt = a.publishedAt := by
  unfold enrichOne
  split
  · split <;> exact ⟨rfl, rfl, rfl, rfl, rfl, rfl⟩
  · exact ⟨rfl, rfl, rfl, rfl, rfl, rfl⟩

lemma enrichOne_url (web : String → Option EnrichDoc) (a : NewsArticle) :
    (enrichOne web a).url = a.url :=
  (enrichOne_fields web a).2.2.2.1

lemma enrichOne_of_imageURL_ne (web : String → Option EnrichDoc) (a : NewsArticle)
    (h : a.imageURL ≠ "") : enrichOne web a = a := by
  unfold enrichOne
  simp [h]

/-! ## Helper lemmas about the listing crawl -/

/-- One `OnHTML` invocation preserves pairwise-distinct URLs: the
duplicate scan rejects any candidate whose resolved link is already
present. -/
lemma processContainer_pairwise_url (now : Nat) (st : CrawlState) (c : Container)
    (h : st.articles.Pairwise (fun a b => a.url ≠ b.url)) :
    ((processContainer now st c).articles).Pairwise (fun a b => a.url ≠ b.url) := by
  unfold processContainer
  dsimp only
  split
  · exact h
  · split
    · exact h
    · split
      · exact h
      · split
        · exact h
        · split
          · exact h
          · split
            · exact h
            · rename_i hdup
              rw [List.pairwise_append]
              refine ⟨h, List.pairwise_singleton _ _, ?_⟩
              intro a ha b hb
              rw [List.mem_singleton] at hb
              subst hb
              intro heq
              exact hdup (List.any_eq_true.mpr ⟨a, ha, by simp [heq]⟩)

lemma foldl_processContainer_pairwise_url (now : Nat) (cs : List Container)
    (st : CrawlState) (h : st.articles.Pairwise (fun a b => a.url ≠ b.url)) :
    ((cs.foldl (processContainer now) st).articles).Pairwise (fun a b => a.url ≠ b.url) := by
  induction cs generalizing st with
  | nil => exact h
  | cons c rest ih =>
    exact ih _ (processContainer_pairwise_url now st c h)

lemma crawlListing_pairwise_url (now : Nat) (cs : List Container) :
    (crawlListing now cs).Pairwise (fun a b => a.url ≠ b.url) :=
  foldl_processContainer_pairwise_url now cs _ (List.Pairwise.nil)

/-- C1.  For every listing crawl of one source, no two articles in the
output share the same `url`: the duplicate scan rejects an exact URL
match before appending, and the enrichment pass never changes `url`. -/
theorem C1_listing_url_dedup (web : String → Option EnrichDoc) (now : Nat)
    (cs : List Container) (out : List NewsArticle)
    (h : fetchTheDailyStarWithColly web now (some cs) = some out) :
    out.Pairwise (fun a b => a.url ≠ b.url) := by
  unfold fetchTheDailyStarWithColly at h
  rw [Option.some.injEq] at h
  subst h
  unfold updateMissingImageURLs
  exact (crawlListing_pairwise_url now cs).map _
    (fun a b hab => by
      rw [enrichOne_url, enrichOne_url]
      exact hab)

/-- Witness for C1: the crawl of two identical containers accepts the
article once, and the theorem applies to the concrete run. -/
theorem C1_listing_url_dedup_witness :
    [shortTitleArticle].Pairwise (fun a b => a.url ≠ b.url) :=
  C1_listing_url_dedup noWeb 0 [shortTitleContainer, shortTitleContainer]
    [shortTitleArticle] (by decide)

/-! ## C2: the 10-character title floor -/

/-- Any article present after one `OnHTML` invocation was either
already accepted, or is built from this container and carries the
cleaned form of the container's non-empty raw title. -/
lemma processContainer_mem_title (now : Nat) (st : CrawlState) (c : Container)
    (a : NewsArticle) (ha : a ∈ (processContainer now st c).articles) :
    a ∈ st.articles ∨ (rawTitle c ≠ "" ∧ a.title = cleanTitle (rawTitle c)) := by
  unfold processContainer at ha
  dsimp only at ha
  split at ha
  · exact Or.inl ha
  · split at ha
    · exact Or.inl ha
    · split at ha
      · exact Or.inl ha
      · split at ha
        · exact Or.inl ha
        · split at ha
          · exact Or.inl ha
          · split at ha
            · exact Or.inl ha
            · rename_i hTitle _ _ _ _
              rw [List.mem_append, List.mem_singleton] at ha
              rcases ha with ha | ha
              · exact Or.inl ha
              · exact Or.inr ⟨hTitle, by rw [ha]⟩

lemma foldl_processContainer_mem_title (now : Nat) (cs : List Container)
    (st : CrawlState) (a : NewsArticle)
    (ha : a ∈ (cs.foldl (processContainer now) st).articles) :
    a ∈ st.articles ∨ ∃ c ∈ cs, rawTitle c ≠ "" ∧ a.title = cleanTitle (rawTitle c) := by
  induction cs generalizing st with
  | nil => exact Or.inl ha
  | cons c rest ih =>
    rcases ih (processContainer now st c) ha with h | ⟨c', hc', h⟩
    · rcases processContainer_mem_title now st c a h with h' | h'
      · exact Or.inl h'
      · exact Or.inr ⟨c, List.mem_cons_self c rest, h'⟩
    · exact Or.inr ⟨c', List.mem_cons_of_mem c hc', h⟩

/-- Counterexample to C2 as stated: the headline of
`shortTitleContainer` passes the 10-character break condition, but the
comma truncation that follows leaves the emitted title at 8
characters. -/
theorem C2_title_floor_counterexample :
    shortTitleArticle ∈ crawlListing 0 [shortTitleContainer] ∧
    shortTitleArticle.title.length < 10 := by decide

/-- C2 amended.  The 10-character requirement is only a break
condition of the selector loop, tested on the trimmed raw selector
text before clean-up; the emitted title is the normalize-then-truncate
clean-up of some container's non-empty raw title and can be shorter
than 10 characters. -/
theorem C2_title_floor_amended (web : String → Option EnrichDoc) (now : Nat)
    (cs : List Container) (out : List NewsArticle)
    (h : fetchTheDailyStarWithColly web now (some cs) = some out) :
    ∀ a ∈ out, ∃ c ∈ cs, rawTitle c ≠ "" ∧ a.title = cleanTitle (rawTitle c) := by
  unfold fetchTheDailyStarWithColly at h
  rw [Option.some.injEq] at h
  subst h
  intro a ha
  unfold updateMissingImageURLs at ha
  rw [List.mem_map] at ha
  obtain ⟨b, hb, hba⟩ := ha
  obtain ⟨c, hc, hne, htitle⟩ :=
    (foldl_processContainer_mem_title now cs _ b hb).resolve_left (by simp)
  refine ⟨c, hc, hne, ?_⟩
  rw [← hba, (enrichOne_fields web b).2.1, htitle]

/-- Witness for C2 amended at the concrete crawl of
`shortTitleContainer`. -/
theorem C2_title_floor_amended_witness :
    ∃ c ∈ [shortTitleContainer], rawTitle c ≠ "" ∧
      shortTitleArticle.title = cleanTitle (rawTitle c) :=
  C2_title_floor_amended noWeb 0 [shortTitleContainer] [shortTitleArticle]
    (by decide) shortTitleArticle (by decide)

/-! ## C3: image attribute priority in listing mode -/

/-- A container whose `img` descendant carries both a plain `src` and
a `data-srcset`. -/
def srcAndSrcsetContainer : Container :=
  { texts := []
    attrs := [(("img", "src"), "https://example.com/a.jpg"),
              (("img", "data-srcset"), "https://example.com/b.jpg")] }

/-- Counterexample to C3 as stated: with both attributes non-empty the
listing extractor returns the `src` value, because `src` is first in
the attribute order, not the `data-srcset` value. -/
theorem C3_image_priority_counterexample :
    srcAndSrcsetContainer.childAttr "img" "data-srcset" = "https://example.com/b.jpg" ∧
    extractListingImage srcAndSrcsetContainer = "https://example.com/a.jpg" := by decide

/-- C3 amended.  The attribute order is `src` first: a non-empty `src`
always wins, and `data-srcset` is consulted only once `src`,
`data-src` and `data-lazy-src` are all empty. -/
theorem C3_image_priority_amended (c : Container) :
    (c.childAttr "img" "src" ≠ "" → rawListingImage c = c.childAttr "img" "src") ∧
    (c.childAttr "img" "src" = "" → c.childAttr "img" "data-src" = "" →
     c.childAttr "img" "data-lazy-src" = "" → c.childAttr "img" "data-srcset" ≠ "" →
     rawListingImage c = c.childAttr "img" "data-srcset") := by
  constructor
  · intro h
    unfold rawListingImage imageAttrs
    simp [List.find?, h]
  · intro h1 h2 h3 h4
    unfold rawListingImage imageAttrs
    simp [List.find?, h1, h2, h3, h4]

/-- Witness for C3 amended at the two-attribute container. -/
theorem C3_image_priority_amended_witness :
    rawListingImage srcAndSrcsetContainer = srcAndSrcsetContainer.childAttr "img" "src" :=
  (C3_image_priority_amended srcAndSrcsetContainer).1 (by decide)

/-! ## C4 and C5: what the enrichment pass merges -/

/-- An article that left the listing pass with both `imageURL` and
`description` empty. -/
def imageOnlyMissingArticle : NewsArticle :=
  { id := "dailystar_0"
    title := "Some long headline here"
    description := ""
    imageURL := ""
    url := "https://www.thedailystar.net/news/bangladesh/2024/x-story"
    source := "thedailystar"
    publishedAt := 0 }

/-- An article whose `imageURL` is populated but whose `description`
is empty. -/
def descriptionMissingArticle : NewsArticle :=
  { id := "dailystar_1"
    title := "Another long headline here"
    description := ""
    imageURL := "https://cdn.example.com/present.jpg"
    url := "https://www.thedailystar.net/news/bangladesh/2024/y-story"
    source := "thedailystar"
    publishedAt := 0 }

/-- An article detail page carrying an Open Graph image. -/
def ogImageDoc : EnrichDoc :=
  { pictureImgDataSrcset := []
    gallerySpanDataSrc := []
    ogImageContent := ["https://cdn.example.com/og.jpg"]
    articleImgSrc := [] }

/-- A web environment on which every article page yields `ogImageDoc`. -/
def ogWeb : String → Option EnrichDoc := fun _ => some ogImageDoc

/-- Counterexample to C4 as stated: the enrichment pass fetches the
page of an article with an empty `imageURL` and merges the image, yet
the empty `description` stays empty; and an article missing only its
`description` is left entirely untouched (its page is never
fetched). -/
theorem C4_enrichment_description_counterexample :
    ((updateMissingImageURLs ogWeb [imageOnlyMissingArticle]).map (fun a => a.imageURL) =
      ["https://cdn.example.com/og.jpg"] ∧
     (updateMissingImageURLs ogWeb [imageOnlyMissingArticle]).map (fun a => a.description) =
      [""]) ∧
    updateMissingImageURLs ogWeb [descriptionMissingArticle] = [descriptionMissingArticle] := by
  decide

/-- C4 amended.  The enrichment pass recovers images only: it touches
no field other than `imageURL`, and it skips (never fetches for) any
article whose `imageURL` is already populated, whatever its
`description`. -/
theorem C4_enrichment_image_only_amended (web : String → Option EnrichDoc)
    (l : List NewsArticle) :
    ((updateMissingImageURLs web l).map
        (fun a => (a.id, a.title, a.description, a.url, a.source, a.publishedAt)) =
      l.map (fun a => (a.id, a.title, a.description, a.url, a.source, a.publishedAt))) ∧
    ∀ a ∈ l, a.imageURL ≠ "" → enrichOne web a = a := by
  constructor
  · unfold updateMissingImageURLs
    rw [List.map_map]
    apply List.map_congr_left
    intro a _
    obtain ⟨h1, h2, h3, h4, h5, h6⟩ := enrichOne_fields web a
    simp [Function.comp, h1, h2, h3, h4, h5, h6]
  · intro a _ h
    exact enrichOne_of_imageURL_ne web a h

/-- Witness for C4 amended: the populated-image article is untouched. -/
theorem C4_enrichment_image_only_amended_witness :
    enrichOne ogWeb descriptionMissingArticle = descriptionMissingArticle :=
  (C4_enrichment_image_only_amended ogWeb [descriptionMissingArticle]).2
    descriptionMissingArticle (by decide) (by decide)

/-- The enrichment pass is the identity on a list of articles whose
images are all populated. -/
lemma updateMissingImageURLs_eq_self (web : String → Option EnrichDoc) :
    ∀ (m : List NewsArticle), (∀ a ∈ m, a.imageURL ≠ "") →
      updateMissingImageURLs web m = m
  | [], _ => rfl
  | a :: t, hm => by
    have ht := updateMissingImageURLs_eq_self web t
      (fun b hb => hm b (List.mem_cons_of_mem a hb))
    unfold updateMissingImageURLs at ht ⊢
    simp only [List.map_cons]
    rw [enrichOne_of_imageURL_ne web a (hm a (List.mem_cons_self a t)), ht]

/-- C5.  On a fully populated article list the enrichment pass changes
nothing, and in particular running it twice equals running it once. -/
theorem C5_enrichment_idempotent (web : String → Option EnrichDoc)
    (l : List NewsArticle)
    (h : ∀ a ∈ l, a.imageURL ≠ "" ∧ a.description ≠ "") :
    updateMissingImageURLs web l = l ∧
    updateMissingImageURLs web (updateMissingImageURLs web l) =
      updateMissingImageURLs web l := by
  have h1 : updateMissingImageURLs web l = l :=
    updateMissingImageURLs_eq_self web l (fun a ha => (h a ha).1)
  exact ⟨h1, by rw [h1]; exact h1⟩

/-- A fully populated article. -/
def populatedArticle : NewsArticle :=
  { id := "dailystar_0"
    title := "A fully populated headline"
    description := "Already has a description"
    imageURL := "https://cdn.example.com/present.jpg"
    url := "https://www.thedailystar.net/news/bangladesh/2024/z-story"
    source := "thedailystar"
    publishedAt := 0 }

/-- Witness for C5 at a concrete fully populated list. -/
theorem C5_enrichment_idempotent_witness :
    updateMissingImageURLs ogWeb [populatedArticle] = [populatedArticle] ∧
    updateMissingImageURLs ogWeb (updateMissingImageURLs ogWeb [populatedArticle]) =
      updateMissingImageURLs ogWeb [populatedArticle] :=
  C5_enrichment_idempotent ogWeb [populatedArticle] (by decide)

/-! ## C6, C7, C10: the handler level -/

lemma foldr_active_eq_filter_map {α : Type} (f : Source → α) (sources : List Source) :
    sources.foldr (fun s acc => if s.active then f s :: acc else acc) [] =
      (sources.filter (fun s => s.active)).map f := by
  induction sources with
  | nil => rfl
  | cons s t ih =>
    by_cases h : s.active <;> simp [List.foldr, List.filter, h, ih]

lemma foldl_append_eq_flatten (ls : List (List NewsArticle)) (init : List NewsArticle) :
    ls.foldl (· ++ ·) init = init ++ ls.flatten := by
  induction ls generalizing init with
  | nil => simp
  | cons l t ih => simp [List.foldl, ih]

/-- C6.  Aggregation always answers with a success envelope whose data
is the concatenation, over the active sources, of each source's fetch
result with a failed fetch contributing exactly the empty list; no
per-source failure fails the aggregate. -/
theorem C6_aggregation_partial_failure (sources : List Source)
    (pages : String → Option (List Container)) (web : String → Option EnrichDoc)
    (now : Nat) :
    GetAllNews sources pages web now =
      .ok 200
        { success := true
          data := (sources.filter (fun s => s.active)).flatMap
            (fun s => (fetchNewsFromSource pages web now s.name s.url).getD [])
          count := ((sources.filter (fun s => s.active)).flatMap
            (fun s => (fetchNewsFromSource pages web now s.name s.url).getD [])).length
          source := "" } := by
  unfold GetAllNews
  dsimp only
  rw [foldr_active_eq_filter_map, foldl_append_eq_flatten]
  simp [List.flatMap]

/-- The source registry constructed by `NewNewsService`. -/
def theDailyStarSource : Source :=
  { name := "thedailystar"
    displayName := "The Daily Star"
    url := "https://www.thedailystar.net/"
    active := true }

/-- Counterexample to C7 as stated: with the real registry and a
failing entry-page fetch, the single-source request does not degrade
to fewer results — it surfaces a hard 500 `fetch_error` response. -/
theorem C7_fetch_error_counterexample :
    GetNewsBySource [theDailyStarSource] noPages noWeb 0 "thedailystar" =
      .err 500 { success := false, error := "fetch_error"
                 message := "Failed to fetch news" } := by decide

/-- C7 amended.  A single-source request has exactly three user-visible
hard failures: 404 `source_not_found`, 400 `source_inactive`, and 500
`fetch_error` when the scrape of the source's entry page fails; every
other outcome is a success envelope. -/
theorem C7_visible_failures_amended (sources : List Source)
    (pages : String → Option (List Container)) (web : String → Option EnrichDoc)
    (now : Nat) (sourceName : String) :
    (∃ resp, GetNewsBySource sources pages web now sourceName = .ok 200 resp ∧
      resp.success = true) ∨
    GetNewsBySource sources pages web now sourceName =
      .err 404 { success := false, error := "source_not_found"
                 message := "News source not found" } ∨
    GetNewsBySource sources pages web now sourceName =
      .err 400 { success := false, error := "source_inactive"
                 message := "News source is currently inactive" } ∨
    GetNewsBySource sources pages web now sourceName =
      .err 500 { success := false, error := "fetch_error"
                 message := "Failed to fetch news" } := by
  unfold GetNewsBySource
  split
  · right; left; rfl
  · split
    · right; right; left; rfl
    · split
      · right; right; right; rfl
      · left; exact ⟨_, rfl, rfl⟩

lemma getNewsBySource_ok_count (sources : List Source)
    (pages : String → Option (List Container)) (web : String → Option EnrichDoc)
    (now : Nat) (sourceName : String) (status : Nat) (resp : NewsResponse)
    (h : GetNewsBySource sources pages web now sourceName = .ok status resp) :
    resp.count = resp.data.length := by
  unfold GetNewsBySource at h
  split at h
  · exact absurd h (by simp)
  · split at h
    · exact absurd h (by simp)
    · split at h
      · exact absurd h (by simp)
      · rw [ApiResult.ok.injEq] at h
        rw [← h.2]

/-- C10.  Every success envelope either handler produces carries a
`count` equal to the length of its `data` list. -/
theorem C10_count_equals_length (sources : List Source)
    (pages : String → Option (List Container)) (web : String → Option EnrichDoc)
    (now : Nat) (sourceName : String) :
    (match GetAllNews sources pages web now with
     | .ok _ resp => resp.count = resp.data.length
     | .err _ _ => True) ∧
    (match GetNewsBySource sources pages web now sourceName with
     | .ok _ resp => resp.count = resp.data.length
     | .err _ _ => True) := by
  constructor
  · unfold GetAllNews
    rfl
  · cases hres : GetNewsBySource sources pages web now sourceName with
    | ok status resp =>
      simp only [hres]
      exact getNewsBySource_ok_count sources pages web now sourceName status resp hres
    | err status resp => simp only [hres]

/-! ## C8: link filtering -/

/-- C8.  Link filtering: a candidate whose stripped path splits into 3
or fewer segments or ends in an empty segment fails the depth filter;
a candidate containing no section keyword fails the keyword filter;
either failure makes the `OnHTML` callback reject the container
outright; and on the three concrete paths of the claim, `/news` is
rejected, `/news/bangladesh/2024/flood-story` passes both filters, and
`/about` is rejected. -/
theorem C8_link_filtering :
    (∀ link, ((pathSegments link).length ≤ 3 ∨ (pathSegments link).getLastD "" = "") →
      linkDepthOK link = false) ∧
    (∀ link, (∀ k ∈ sectionKeywords, strContains link k = false) →
      linkKeywordOK link = false) ∧
    (∀ (now : Nat) (st : CrawlState) (c : Container),
      (linkDepthOK (absoluteURL (c.childAttr "a" "href")) = false ∨
       linkKeywordOK (absoluteURL (c.childAttr "a" "href")) = false) →
      processContainer now st c = st) ∧
    linkDepthOK (theDailyStarOrigin ++ "/news") = false ∧
    (linkDepthOK (theDailyStarOrigin ++ "/news/bangladesh/2024/flood-story") = true ∧
     linkKeywordOK (theDailyStarOrigin ++ "/news/bangladesh/2024/flood-story") = true) ∧
    (linkDepthOK (theDailyStarOrigin ++ "/about") = false ∧
     linkKeywordOK (theDailyStarOrigin ++ "/about") = false) := by
  refine ⟨?_, ?_, ?_, by decide, by decide, by decide⟩
  · intro link h
    simp only [linkDepthOK, decide_eq_false_iff_not, not_not]
    exact h
  · intro link h
    simp only [linkKeywordOK, List.any_eq_false]
    intro k hk
    simp [h k hk]
  · intro now st c h
    unfold processContainer
    dsimp only
    split
    · rfl
    · split
      · rfl
      · split
        · rfl
        · split
          · rfl
          · split
            · rfl
            · split
              · rfl
              · rename_i hd hk _
                rcases h with h | h <;> simp_all

/-- Witness for C8: the depth filter rejects the bare `/news` path. -/
theorem C8_link_filtering_witness :
    linkDepthOK (theDailyStarOrigin ++ "/news") = false :=
  C8_link_filtering.1 (theDailyStarOrigin ++ "/news") (Or.inl (by decide))

/-! ## C9: absolute image URLs -/

lemma takeWhile_append_all {p : Char → Bool} {l₁ l₂ : List Char} (h : ∀ a ∈ l₁, p a) :
    (l₁ ++ l₂).takeWhile p = l₁ ++ l₂.takeWhile p := by
  induction l₁ with
  | nil => rfl
  | cons a t ih =>
    rw [List.cons_append, List.takeWhile_cons, if_pos (h a (List.mem_cons_self a t)),
      ih (fun b hb => h b (List.mem_cons_of_mem a hb))]
    rfl

lemma dropWhile_append_cases (p : Char → Bool) (l₁ l₂ : List Char) :
    (l₁ ++ l₂).dropWhile p =
      (if (l₁.dropWhile p).isEmpty then l₂.dropWhile p else l₁.dropWhile p ++ l₂) := by
  induction l₁ with
  | nil => simp
  | cons a t ih =>
    by_cases h : p a <;> simp [List.dropWhile_cons, h, ih]

/-- A non-empty run of non-whitespace characters at the front survives
trailing-whitespace removal. -/
lemma prefix_trailingTrim (p r : List Char) (hne : p ≠ [])
    (hws : ∀ a ∈ p, a.isWhitespace = false) :
    p <+: ((p ++ r).reverse.dropWhile Char.isWhitespace).reverse := by
  rw [List.reverse_append, dropWhile_append_cases]
  split
  · have hrev : p.reverse ≠ [] := fun h0 => hne (List.reverse_eq_nil_iff.mp h0)
    obtain ⟨b, q, hq⟩ := List.exists_cons_of_ne_nil hrev
    have hb : b ∈ p := List.mem_reverse.mp (hq ▸ List.mem_cons_self b q)
    rw [hq, List.dropWhile_cons, hws b hb]
    simp only [Bool.false_eq_true, if_false]
    rw [← hq, List.reverse_reverse]
  · rw [List.reverse_append, List.reverse_reverse]
    exact List.prefix_append p _

/-- A non-empty run of non-whitespace characters at the front survives
`strings.TrimSpace`. -/
lemma prefix_goTrim (p : List Char) (s : String) (hne : p ≠ [])
    (hws : ∀ a ∈ p, a.isWhitespace = false) (h : p <+: s.toList) :
    p <+: (goTrim s).toList := by
  obtain ⟨r, hr⟩ := h
  obtain ⟨a, p', rfl⟩ := List.exists_cons_of_ne_nil hne
  unfold goTrim
  rw [List.toList_asString, ← hr, List.cons_append, List.dropWhile_cons,
    hws a (List.mem_cons_self a p')]
  simp only [Bool.false_eq_true, if_false]
  rw [show a :: (p' ++ r) = (a :: p') ++ r from rfl]
  exact prefix_trailingTrim (a :: p') r hne hws

/-- A front run avoiding the separator survives taking the first split
field. -/
lemma prefix_firstSplitField (sep : Char) (p : List Char) (s : String)
    (hsep : ∀ a ∈ p, a ≠ sep) (h : p <+: s.toList) :
    p <+: (firstSplitField sep s).toList := by
  obtain ⟨r, hr⟩ := h
  unfold firstSplitField
  rw [List.toList_asString, ← hr,
    takeWhile_append_all (fun a ha => decide_eq_true (hsep a ha))]
  exact List.prefix_append p _

lemma isAbsoluteURL_iff (s : String) :
    isAbsoluteURL s = true ↔
      ("http://".toList <+: s.toList ∨ "https://".toList <+: s.toList) := by
  unfold isAbsoluteURL
  rw [Bool.or_eq_true, List.isPrefixOf_iff_prefix, List.isPrefixOf_iff_prefix]

lemma absoluteURL_absolute (raw : String) (hraw : ¬raw = "") :
    isAbsoluteURL (absoluteURL raw) = true := by
  unfold absoluteURL
  rw [if_neg hraw]
  split
  · assumption
  · rw [isAbsoluteURL_iff]
    right
    rw [show (theDailyStarOrigin ++ raw).toList =
      theDailyStarOrigin.toList ++ raw.toList from rfl]
    exact List.IsPrefix.trans (by decide) (List.prefix_append theDailyStarOrigin.toList _)

/-- The listing image post-processing preserves absoluteness: the
resolved value either is empty or carries an explicit http scheme,
even after the responsive-srcset clipping. -/
lemma resolveListingImage_absolute (raw : String) :
    resolveListingImage raw = "" ∨ isAbsoluteURL (resolveListingImage raw) = true := by
  unfold resolveListingImage
  dsimp only
  split
  · exact Or.inl rfl
  · rename_i hraw
    have hu : isAbsoluteURL (absoluteURL raw) = true := absoluteURL_absolute raw hraw
    split
    · right
      rw [isAbsoluteURL_iff] at hu ⊢
      rcases hu with hp | hp
      · exact Or.inl (prefix_goTrim _ _ (by decide) (by decide)
          (prefix_firstSplitField _ _ _ (by decide)
            (prefix_firstSplitField _ _ _ (by decide) hp)))
      · exact Or.inr (prefix_goTrim _ _ (by decide) (by decide)
          (prefix_firstSplitField _ _ _ (by decide)
            (prefix_firstSplitField _ _ _ (by decide) hp)))
    · exact Or.inr hu

/-- An article detail page whose only image is a relative `src` inside
the article body. -/
def relativeImageDoc : EnrichDoc :=
  { pictureImgDataSrcset := []
    gallerySpanDataSrc := []
    ogImageContent := []
    articleImgSrc := ["/images/pic.jpg"] }

/-- A web environment on which every article page yields
`relativeImageDoc`. -/
def relativeWeb : String → Option EnrichDoc := fun _ => some relativeImageDoc

/-- Counterexample to C9 as stated: enrichment recovers the relative
value `/images/pic.jpg` from the article page and stores it without
resolving it against that page, so a stored non-empty `imageURL` is
not always absolute. -/
theorem C9_absolute_image_counterexample :
    (updateMissingImageURLs relativeWeb [imageOnlyMissingArticle]).map
        (fun a => a.imageURL) = ["/images/pic.jpg"] ∧
    isAbsoluteURL "/images/pic.jpg" = false := by decide

/-- C9 amended.  Images recovered by the listing pass are resolved and
are absolute whenever non-empty; images recovered by the enrichment
pass are stored verbatim, with no resolution against the page they
were found on. -/
theorem C9_absolute_image_amended (c : Container) (web : String → Option EnrichDoc)
    (a : NewsArticle) :
    (extractListingImage c = "" ∨ isAbsoluteURL (extractListingImage c) = true) ∧
    (∀ img, a.imageURL = "" → scrapeImageFromURL (web a.url) = some img →
      (enrichOne web a).imageURL = img) := by
  constructor
  · exact resolveListingImage_absolute (rawListingImage c)
  · intro img h1 h2
    unfold enrichOne
    rw [if_pos h1, h2]

/-- Witness for C9 amended: a concrete enrichment stores the page's
relative value verbatim. -/
theorem C9_absolute_image_amended_witness :
    (enrichOne relativeWeb imageOnlyMissingArticle).imageURL = "/images/pic.jpg" :=
  (C9_absolute_image_amended srcAndSrcsetContainer relativeWeb
    imageOnlyMissingArticle).2 "/images/pic.jpg" rfl (by decide)

end DailyTopNews
